import Mathlib

/-!
Verification of the SEC financial-extraction pipeline (`sec_financials.py`)
of the financial-analyst-agent repository.

The Python source is shallowly embedded: dict-shaped facts become structures
with optional fields, Python `list.sort(key=...)` becomes `List.mergeSort`
with the corresponding boolean key order (both are stable sorts), Python
truthiness of optional strings is modelled explicitly, and calendar-date
subtraction (`datetime.date` arithmetic) is modelled with a proleptic
Gregorian day count.
-/

namespace SecFin

/-- Day number of a proleptic Gregorian date, mirroring Python
`datetime.date.toordinal` up to a constant offset (only differences of two
day numbers are ever used, so the offset is irrelevant). -/
def daysFromCivil (y m d : Int) : Int :=
  let y2 := if m ≤ 2 then y - 1 else y
  let era := y2.fdiv 400
  let yoe := y2 - era * 400
  let mp := (m + 9).emod 12
  let doy := (153 * mp + 2).fdiv 5 + d - 1
  let doe := yoe * 365 + yoe.fdiv 4 - yoe.fdiv 100 + doy
  era * 146097 + doe - 719468

/-- Split a character list at every occurrence of the separator character
(structural analogue of `str.split` with a one-character separator). -/
def splitOnChar (c : Char) : List Char → List (List Char)
  | [] => [[]]
  | x :: xs =>
    let r := splitOnChar c xs
    if x = c then [] :: r
    else
      match r with
      | [] => [[x]]
      | y :: ys => (x :: y) :: ys

/-- Value of a non-empty decimal digit string. -/
def decDigitsVal (l : List Char) : Nat :=
  l.foldl (fun n c => n * 10 + (c.toNat - 48)) 0

/-- Whether a character list is a non-empty run of decimal digits. -/
def isDigits (l : List Char) : Bool :=
  !l.isEmpty && l.all Char.isDigit

/-- Parse an ISO `YYYY-MM-DD` date string into (year, month, day).
Mirrors `datetime.date.fromisoformat`; a malformed string yields `none`
(the Python call raises there, which never happens on the feeds the
claims quantify over). -/
def parseDate (s : String) : Option (Int × Int × Int) :=
  match splitOnChar '-' s.data with
  | [ys, ms, ds] =>
    if isDigits ys && isDigits ms && isDigits ds then
      some ((decDigitsVal ys : Int), (decDigitsVal ms : Int), (decDigitsVal ds : Int))
    else none
  | _ => none

/-- Python truthiness of an optional string: `None` and `""` are falsy. -/
def optStrTruthy : Option String → Bool
  | none => false
  | some s => s != ""

/-- One entry of a `units.USD` facts array in the companyfacts feed
(`facts[tag]["units"]["USD"][i]` in the source): a dict with optional
keys `accn`, `start`, `end`, `form`, `val`. -/
structure RawFact where
  accn : Option String := none
  start : Option String := none
  «end» : Option String := none
  form : Option String := none
  val : Option Rat := none
  deriving DecidableEq, Repr

/-- The `Filing` dataclass of `sec_financials.py`. -/
structure Filing where
  form : String
  filing_date : String
  report_date : Option String
  accession : String
  primary_doc : String
  fy : Option Int
  fp : Option String
  deriving DecidableEq, Repr

/-- `_duration_days` of `sec_financials.py`: `None` when `start` or `end`
is missing or empty (Python falsiness), otherwise the day difference
`end - start`. -/
def duration_days (f : RawFact) : Option Int :=
  if optStrTruthy f.start && optStrTruthy f.«end» then
    match parseDate (f.«end».getD ""), parseDate (f.start.getD "") with
    | some (ye, me, de), some (ys, ms, ds) =>
        some (daysFromCivil ye me de - daysFromCivil ys ms ds)
    | _, _ => none
  else none

/-- Python `_duration_days(f) or default`: `None` is replaced by the
default, and so is `0` (integer `0` is falsy in Python). -/
def durOr (f : RawFact) (dflt : Int) : Int :=
  match duration_days f with
  | some d => if d = 0 then dflt else d
  | none => dflt

/-- Boolean lexicographic order derived from two key functions into linear
orders; this is exactly Python tuple comparison `(k1 x, k2 x) <= (k1 y, k2 y)`
as used by `list.sort(key=...)`. -/
def lex2LE {α : Type} {β γ : Type} [LinearOrder β] [LinearOrder γ]
    (k1 : α → β) (k2 : α → γ) (a b : α) : Bool :=
  decide (k1 a < k1 b) || (decide (k1 a = k1 b) && decide (k2 a ≤ k2 b))

theorem lex2LE_trans {α β γ : Type} [LinearOrder β] [LinearOrder γ]
    (k1 : α → β) (k2 : α → γ) (a b c : α)
    (hab : lex2LE k1 k2 a b) (hbc : lex2LE k1 k2 b c) : lex2LE k1 k2 a c := by
  simp only [lex2LE, Bool.or_eq_true, Bool.and_eq_true, decide_eq_true_eq] at *
  rcases hab with h1 | ⟨h1, h2⟩ <;> rcases hbc with h3 | ⟨h3, h4⟩
  · exact Or.inl (lt_trans h1 h3)
  · exact Or.inl (h3 ▸ h1)
  · exact Or.inl (h1 ▸ h3)
  · exact Or.inr ⟨h1.trans h3, le_trans h2 h4⟩

theorem lex2LE_total {α β γ : Type} [LinearOrder β] [LinearOrder γ]
    (k1 : α → β) (k2 : α → γ) (a b : α) :
    lex2LE k1 k2 a b || lex2LE k1 k2 b a := by
  simp only [lex2LE, Bool.or_eq_true, Bool.and_eq_true, decide_eq_true_eq]
  rcases lt_trichotomy (k1 a) (k1 b) with h | h | h
  · exact Or.inl (Or.inl h)
  · rcases le_total (k2 a) (k2 b) with h2 | h2
    · exact Or.inl (Or.inr ⟨h, h2⟩)
    · exact Or.inr (Or.inr ⟨h.symm, h2⟩)
  · exact Or.inr (Or.inl h)

theorem lex2LE_refl {α β γ : Type} [LinearOrder β] [LinearOrder γ]
    (k1 : α → β) (k2 : α → γ) (a : α) : lex2LE k1 k2 a a := by
  have := lex2LE_total k1 k2 a a
  simpa using this

/-- Head of a `mergeSort` by a total, transitive boolean order is a minimum
of the input list. -/
theorem mergeSort_head_min {α : Type} (le : α → α → Bool)
    (htrans : ∀ a b c, le a b → le b c → le a c)
    (htotal : ∀ a b, le a b || le b a)
    (l : List α) (hne : l ≠ []) :
    ∃ a, (l.mergeSort le).head? = some a ∧ a ∈ l ∧ ∀ b ∈ l, le a b := by
  have hperm := List.mergeSort_perm l le
  have hsorted := List.sorted_mergeSort htrans htotal l
  have hne2 : l.mergeSort le ≠ [] := by
    intro h
    exact hne (List.Perm.eq_nil (h ▸ hperm).symm)
  obtain ⟨a, t, ht⟩ := List.exists_cons_of_ne_nil hne2
  refine ⟨a, by rw [ht]; rfl, ?_, ?_⟩
  · have : a ∈ l.mergeSort le := by rw [ht]; exact List.mem_cons_self a t
    exact (List.mem_mergeSort).mp this
  · intro b hb
    have hbms : b ∈ l.mergeSort le := (List.mem_mergeSort).mpr hb
    rw [ht] at hbms hsorted
    rcases List.mem_cons.mp hbms with rfl | hbt
    · have := htotal b b
      simpa using this
    · exact List.rel_of_pairwise_cons hsorted hbt

/-- The sort key of `_select_fact_for_filing`, line 227 of the source:
`(_duration_days(f) or 9999, f.get("end", ""))`. -/
def selDur (f : RawFact) : Int := durOr f 9999

/-- Second component of the selection sort key: `f.get("end", "")`. -/
def selEnd (f : RawFact) : String := f.«end».getD ""

/-- Ascending order on the selection key, matching Python tuple comparison
inside `cands.sort(key=lambda f: (_duration_days(f) or 9999, f.get("end", "")))`. -/
def selLE : RawFact → RawFact → Bool := lex2LE selDur selEnd

/-- Candidates matching the filing's accession
(`[f for f in facts if f.get("accn") == filing.accession]`). -/
def accessionCands (facts : List RawFact) (filing : Filing) : List RawFact :=
  facts.filter (fun f => f.accn == some filing.accession)

/-- Fallback candidates matched by report date and form
(`[f for f in facts if f.get("end") == filing.report_date and f.get("form") == filing.form]`). -/
def fallbackCands (facts : List RawFact) (filing : Filing) : List RawFact :=
  facts.filter (fun f =>
    f.«end» == filing.report_date && f.form == some filing.form)

/-- The candidate pool of `_select_fact_for_filing` before the quarterly
duration filter: accession matches, falling back to (end = report date,
form) matches when the accession matches nothing and the filing's report
date is truthy. -/
def baseCands (facts : List RawFact) (filing : Filing) : List RawFact :=
  let c := accessionCands facts filing
  if c.isEmpty && optStrTruthy filing.report_date then fallbackCands facts filing
  else c

/-- The YTD-contamination note appended by `_select_fact_for_filing`. -/
def ytdNote : String := "Quarter appears YTD; no safe quarter-only conversion available."

/-- The quarterly duration filter of `_select_fact_for_filing` (lines
221-226): for a 10-Q keep candidates whose duration (`or 999`) is ≤ 105
days, keeping everything plus the YTD note when none qualify. -/
def quarterFiltered (cands : List RawFact) (filing : Filing) :
    List RawFact × List String :=
  if filing.form == "10-Q" then
    let quarter := cands.filter (fun f => decide (durOr f 999 ≤ 105))
    if quarter.isEmpty then (cands, [ytdNote])
    else (quarter, ([] : List String))
  else (cands, ([] : List String))

/-- `_select_fact_for_filing` of `sec_financials.py`: filter candidates,
apply the quarterly duration filter, stable-sort by the selection key and
return the first element (`cands[0]`). -/
def select_fact_for_filing (facts : List RawFact) (filing : Filing) :
    Option RawFact × List String :=
  let cands := baseCands facts filing
  if cands.isEmpty then (none, [])
  else
    let step := quarterFiltered cands filing
    ((step.1.mergeSort selLE).head?, step.2)

/-- Provenance record built by the extractors. -/
structure Provenance where
  filing_type : String
  accession : String
  filing_date : String
  source_ref : String
  unit : String
  deriving DecidableEq, Repr

/-- The metric dict built by the inner `metric` helper of
`extract_primary_metrics`. -/
structure Metric where
  value : Rat
  unit : String
  xbrl_tag : String
  source : String
  confidence : Rat
  provenance : Provenance
  capex_definition : Option String := none
  deriving DecidableEq, Repr

/-- One `missing_data` entry: field name plus human-readable reason. -/
structure MissingEntry where
  field : String
  reason : String
  deriving DecidableEq, Repr

/-- The `facts["us-gaap"]` table of a companyfacts feed, restricted to what
the extractor reads: an association list from tag name to the
`units.USD` fact entries. -/
structure CompanyFacts where
  usgaap : List (String × List RawFact)
  deriving DecidableEq, Repr

/-- `facts.get(tag, \x7b\x7d).get("units", \x7b\x7d).get("USD", [])`:
the USD entries of a tag, empty when the tag is absent (dict keys are
unique, so the first association-list match models dict lookup). -/
def lookupTag (cf : CompanyFacts) (tag : String) : List RawFact :=
  match cf.usgaap.find? (fun p => p.1 == tag) with
  | some p => p.2
  | none => []

/-- Output of one `metric(name, tags, capex_def)` call: the chosen metric
(if any), the notes it accumulated, and the missing-data entries it
appended. -/
structure MetricOut where
  result : Option Metric
  notes : List String
  missing : List MissingEntry
  deriving DecidableEq, Repr

/-- The missing-data reason of the inner `metric` helper:
`f"No matching XBRL facts found for tags: ..."` over the attempted tags. -/
def missReason (tags : List String) : String :=
  "No matching XBRL facts found for tags: " ++ String.intercalate ", " tags

/-- Loop body of the inner `metric` helper of `extract_primary_metrics`:
try the alias tags in order; on the first tag whose selected fact carries a
value, build the metric dict; notes from every attempted selection are
kept; when every tag fails, append one missing-data entry naming the
metric and all the tags. -/
def metricGo (cf : CompanyFacts) (filing : Filing) (name : String)
    (capex_def : Option String) (allTags : List String) :
    List String → List String → MetricOut
  | [], notes =>
    { result := none, notes := notes,
      missing := [⟨name, missReason allTags⟩] }
  | tag :: rest, notes =>
    let sel := select_fact_for_filing (lookupTag cf tag) filing
    let notes2 := notes ++ sel.2
    match sel.1 with
    | some fact =>
      match fact.val with
      | some v =>
        { result := some
            { value := v, unit := "USD", xbrl_tag := tag, source := "xbrl",
              confidence := (95 : Rat) / 100,
              provenance :=
                { filing_type := filing.form, accession := filing.accession,
                  filing_date := filing.filing_date,
                  source_ref := "us-gaap:" ++ tag, unit := "USD" },
              capex_definition := if optStrTruthy capex_def then capex_def else none },
          notes := notes2, missing := [] }
      | none => metricGo cf filing name capex_def allTags rest notes2
    | none => metricGo cf filing name capex_def allTags rest notes2

/-- One `metric(name, tags, capex_def)` call of `extract_primary_metrics`. -/
def metricOne (cf : CompanyFacts) (filing : Filing) (name : String)
    (capex_def : Option String) (tags : List String) : MetricOut :=
  metricGo cf filing name capex_def tags tags []

/-- Alias tags for revenue. -/
def revenueTags : List String :=
  ["RevenueFromContractWithCustomerExcludingAssessedTax", "Revenues", "SalesRevenueNet"]

/-- Alias tags for net income. -/
def profitTags : List String := ["NetIncomeLoss"]

/-- Primary capex tag tier. -/
def capexPrimaryTags : List String := ["PaymentsToAcquirePropertyPlantAndEquipment"]

/-- Fallback capex tag tier. -/
def capexFallbackTags : List String := ["CapitalExpenditures"]

/-- Result of `extract_primary_metrics`: the three metric slots plus the
shared notes and missing-data lists. -/
structure PrimaryResult where
  revenue : Option Metric
  profit_net_income : Option Metric
  capex : Option Metric
  notes : List String
  missing : List MissingEntry
  deriving DecidableEq, Repr

/-- `extract_primary_metrics` of `sec_financials.py`. Python evaluates the
capex call first (line 255), then its fallback tier when the primary tier
returned `None` (line 257), then revenue and net income in the order of the
result-dict literal; the shared `notes` and `missing` lists accumulate in
that evaluation order. -/
def extract_primary_metrics (cf : CompanyFacts) (filing : Filing) : PrimaryResult :=
  let cap1 := metricOne cf filing "capex" (some "cash_paid_for_ppe") capexPrimaryTags
  let cap :=
    match cap1.result with
    | some m => { result := some m, notes := cap1.notes, missing := cap1.missing : MetricOut }
    | none =>
      let fb := metricOne cf filing "capex" (some "capital_expenditures_fallback") capexFallbackTags
      { result := fb.result, notes := cap1.notes ++ fb.notes,
        missing := cap1.missing ++ fb.missing }
  let rev := metricOne cf filing "revenue" none revenueTags
  let prof := metricOne cf filing "profit_net_income" none profitTags
  { revenue := rev.result, profit_net_income := prof.result, capex := cap.result,
    notes := cap.notes ++ rev.notes ++ prof.notes,
    missing := cap.missing ++ rev.missing ++ prof.missing }

/-- ASCII whitespace recognizer for the embedding of Python `str.strip`. -/
def isWS (c : Char) : Bool :=
  c == ' ' || c == '\t' || c == '\n' || c == '\r'

/-- Python `str.strip()` on the ASCII whitespace the feeds contain. -/
def trimStr (s : String) : String :=
  String.mk (((s.data.dropWhile isWS).reverse.dropWhile isWS).reverse)

/-- Last component of a character-split, as a string: models Python
`s.split(sep)[-1]` for a one-character separator. -/
def lastSplit (c : Char) (s : String) : String :=
  String.mk ((splitOnChar c s.data).getLastD [])

/-- Local name of an ElementTree tag: `f.tag.split("\x7d")[-1]`. -/
def localName (s : String) : String := lastSplit (Char.ofNat 125) s

/-- Full match of the numeric-literal pattern of line 355,
`-?\d+(\.\d+)?` : optional minus sign, digits, optional dot and digits. -/
def numLit (s : String) : Bool :=
  let l :=
    match s.data with
    | c :: rest => if c = '-' then rest else s.data
    | [] => []
  match splitOnChar '.' l with
  | [a] => isDigits a
  | [a, b] => isDigits a && isDigits b
  | _ => false

/-- Value of a numeric literal accepted by `numLit`, as a rational: models
Python `float(txt)` on such literals. -/
def ratOfNumLit (s : String) : Rat :=
  let (sign, l) :=
    match s.data with
    | c :: rest => if c = '-' then ((-1 : Int), rest) else ((1 : Int), s.data)
    | [] => ((1 : Int), ([] : List Char))
  match splitOnChar '.' l with
  | [a] => (sign : Rat) * (decDigitsVal a : Rat)
  | [a, b] => (sign : Rat) * ((decDigitsVal a : Rat) + (decDigitsVal b : Rat) / ((10 : Rat) ^ b.length))
  | _ => 0

/-- One `xbrldi:explicitMember` element inside a context's segment:
dimension attribute and raw element text. -/
structure ExplicitMember where
  dimension : String
  text : String
  deriving DecidableEq, Repr

/-- One `xbrli:context` element of an instance document, as the parse loop
of `extract_segment_metrics` reads it: id attribute, explicit members, and
the period end date (`endDate`, falling back to `instant`). -/
structure XmlContext where
  id : String
  members : List ExplicitMember
  endDate : Option String
  deriving DecidableEq, Repr

/-- A dimension/member pair recorded in the `ctx` dict: member text is
stripped on entry (`(em.text or "").strip()`). -/
def ctxMembers (c : XmlContext) : List (String × String) :=
  c.members.map (fun em => (em.dimension, trimStr em.text))

/-- Lookup in the `ctx` dict built over all contexts in document order:
a repeated context id overwrites the earlier entry, so the last match
wins. -/
def ctxLookup (ctxs : List XmlContext) (cid : String) : Option XmlContext :=
  (ctxs.filter (fun c => c.id == cid)).getLast?

/-- One element visited by the fact walk `for f in root.iter()`: full tag
(with namespace), optional `contextRef` attribute, optional text. Context
and member elements carry no `contextRef`, so representing only
`contextRef`-bearing elements plus arbitrary others is faithful. -/
structure XmlElem where
  tag : String
  contextRef : Option String
  text : Option String
  deriving DecidableEq, Repr

/-- A segment metric row as appended by `extract_segment_metrics`. -/
structure SegmentRow where
  segment : String
  value : Rat
  unit : String
  xbrl_tag : String
  dimension : String
  member : String
  source : String
  confidence : Rat
  provenance : Provenance
  deriving DecidableEq, Repr

/-- Tag set for `revenue_by_segment` in `map_tags`. -/
def segRevenueTags : List String :=
  ["RevenueFromContractWithCustomerExcludingAssessedTax", "Revenues", "SalesRevenueNet"]

/-- Tag set for `profit_by_segment` in `map_tags`. -/
def segProfitTags : List String := ["NetIncomeLoss"]

/-- Tag set for `capex_by_segment` in `map_tags`. -/
def segCapexTags : List String :=
  ["PaymentsToAcquirePropertyPlantAndEquipment", "CapitalExpenditures"]

/-- Rows contributed to one output key by one visited element: the guards
of the fact walk (lines 344-369) in order — a known `contextRef`, a
context end date compatible with the filing's report date, at least one
dimensional member, a plain numeric text, and a tag in the key's tag set;
one row is emitted per member of the element's context. -/
def segRowsElem (instanceRef : String) (filing : Filing)
    (ctxs : List XmlContext) (tags : List String) (f : XmlElem) : List SegmentRow :=
  let tag := localName f.tag
  match f.contextRef with
  | none => []
  | some cr =>
    match ctxLookup ctxs cr with
    | none => []
    | some c =>
      if optStrTruthy filing.report_date && optStrTruthy c.endDate &&
          !(c.endDate == filing.report_date) then []
      else
        let mems := ctxMembers c
        if mems.isEmpty then []
        else
          let txt := trimStr (f.text.getD "")
          if !numLit txt then []
          else if tags.contains tag then
            mems.map (fun m =>
              { segment := lastSplit ':' m.2, value := ratOfNumLit txt, unit := "USD",
                xbrl_tag := tag, dimension := m.1, member := m.2, source := "xbrl",
                confidence := (85 : Rat) / 100,
                provenance :=
                  { filing_type := filing.form, accession := filing.accession,
                    filing_date := filing.filing_date, source_ref := instanceRef,
                    unit := "USD" } })
          else []

/-- The three segment output lists. -/
structure SegResult where
  revenue_by_segment : List SegmentRow
  profit_by_segment : List SegmentRow
  capex_by_segment : List SegmentRow
  deriving DecidableEq, Repr

/-- Core of `extract_segment_metrics` after the instance document has been
located, fetched and parsed (the network and XML layers are upstream of
this function): walk all elements, collect rows per key, and append one
missing-data entry for every key whose list stayed empty. -/
def extract_segment_metrics_core (instanceRef : String) (filing : Filing)
    (ctxs : List XmlContext) (elems : List XmlElem) :
    SegResult × List MissingEntry :=
  let out : SegResult :=
    { revenue_by_segment := elems.flatMap (segRowsElem instanceRef filing ctxs segRevenueTags)
      profit_by_segment := elems.flatMap (segRowsElem instanceRef filing ctxs segProfitTags)
      capex_by_segment := elems.flatMap (segRowsElem instanceRef filing ctxs segCapexTags) }
  let noDim : String := "No dimensional facts found in XBRL instance for this filing."
  let missing :=
    (if out.revenue_by_segment.isEmpty then [⟨"revenue_by_segment", noDim⟩] else []) ++
    (if out.profit_by_segment.isEmpty then [⟨"profit_by_segment", noDim⟩] else []) ++
    (if out.capex_by_segment.isEmpty then [⟨"capex_by_segment", noDim⟩] else [])
  (out, missing)

/-- Python `f.report_date or f.filing_date`: the report date unless it is
`None` or empty, else the filing date. -/
def sortDate (f : Filing) : String :=
  match f.report_date with
  | some s => if s = "" then f.filing_date else s
  | none => f.filing_date

/-- Ascending order on the filing sort key
`(f.report_date or f.filing_date, f.form)` (ISO date strings compare
lexicographically like dates). -/
def filingLE : Filing → Filing → Bool := lex2LE sortDate (fun f => f.form)

/-- Stable-descending order on `f.report_date or f.filing_date`, as
produced by `quarters.sort(key=..., reverse=True)`. -/
def qDescLE (a b : Filing) : Bool := decide (sortDate b ≤ sortDate a)

/-- Python `int(filing_date[:4])` on the well-formed `YYYY-MM-DD` strings
of the submissions feed (a malformed prefix, where the Python call would
raise, is modelled as year 0). -/
def yearOf (s : String) : Int :=
  if isDigits (s.data.take 4) then (decDigitsVal (s.data.take 4) : Int) else 0

/-- One aligned row of the `filings.recent` parallel arrays of a
submissions catalog (`form[i]`, `filingDate[i]`, ...); a column that is
absent from the feed contributes `none` for every row, matching the
`recent.get(key, [None] * 9999)[i]` defaults. -/
structure SubmissionEntry where
  form : String
  filingDate : String
  reportDate : Option String
  accessionNumber : String
  primaryDocument : String
  fy : Option Int
  fp : Option String
  deriving DecidableEq, Repr

/-- The skip condition of `collect_filings` line 180:
`int(filing_date[:4]) < min_year and (fy is not None and fy < min_year)`. -/
def staleEntry (minYear : Int) (e : SubmissionEntry) : Bool :=
  decide (yearOf e.filingDate < minYear) &&
    (match e.fy with
     | some y => decide (y < minYear)
     | none => false)

/-- Filing built from one kept submission entry. -/
def filingOfEntry (e : SubmissionEntry) : Filing :=
  { form := e.form, filing_date := e.filingDate, report_date := e.reportDate,
    accession := e.accessionNumber, primary_doc := e.primaryDocument,
    fy := e.fy, fp := e.fp }

/-- `collect_filings` of `sec_financials.py`, with the clock reading
(`dt.datetime.utcnow().year`) passed in as `currentYear`: keep the two
supported forms, drop entries stale by both signals, and sort ascending by
`(report_date or filing_date, form)`. -/
def collect_filings (recent : List SubmissionEntry) (currentYear : Int)
    (years : Int) : List Filing :=
  let minYear := currentYear - years
  (((recent.filter (fun e => e.form == "10-K" || e.form == "10-Q")).filter
      (fun e => !staleEntry minYear e)).map filingOfEntry).mergeSort filingLE

/-- `limit_filings_scope` of `sec_financials.py`: all annuals, plus the
`max_quarters` most recent quarterlies (stable sort descending by
report-or-filing date, then truncate), re-sorted ascending for output. -/
def limit_filings_scope (filings : List Filing) (max_quarters : Nat) : List Filing :=
  let annuals := filings.filter (fun f => f.form == "10-K")
  let quarters := filings.filter (fun f => f.form == "10-Q")
  let qsorted := quarters.mergeSort qDescLE
  let kept := annuals ++ qsorted.take max_quarters
  kept.mergeSort filingLE

/-- Errors raised by the fetch client: decompression failure, per-artifact
size cap exceeded, per-run download cap exceeded. -/
inductive FetchError where
  | decompress (context : String)
  | artifactTooLarge (url : String) (size : Nat)
  | runBudgetExceeded (url : String) (total : Nat)
  deriving DecidableEq, Repr

/-- Mutable state of one `SecClient` instance: budgets and the running
byte/request counters, the throttle timestamp, and the on-disk cache
(keyed here by URL; `_cache_path` derives one file per normalized URL). -/
structure SecClientState where
  max_file_size_bytes : Nat
  max_total_download_bytes : Nat
  total_downloaded_bytes : Nat
  request_count : Nat
  last_request_ts : Rat
  cache : List (String × List Nat)
  deriving DecidableEq, Repr

/-- Cache read (`cp.exists()` then `cp.read_bytes()`). -/
def cacheLookup (cache : List (String × List Nat)) (url : String) : Option (List Nat) :=
  match cache.find? (fun p => p.1 == url) with
  | some p => some p.2
  | none => none

/-- An HTTP response as the client sees it: raw body bytes and the
`Content-Encoding` header. -/
structure NetResponse where
  body : List Nat
  content_encoding : Option String
  deriving DecidableEq, Repr

/-- Lower-casing for the `Content-Encoding` comparison. -/
def lowerStr (s : String) : String := String.mk (s.data.map Char.toLower)

/-- `_decode_response_bytes`: dispatch on the stated encoding, else sniff
the gzip signature (0x1F 0x8B); decompression failure is a hard error
naming the context. The gzip and deflate decompressors are the external
zlib library, passed in as oracles that return `none` on corrupt input. -/
def decode_response_bytes (gunzip inflate : List Nat → Option (List Nat))
    (data : List Nat) (content_encoding : Option String) (context : String) :
    Except FetchError (List Nat) :=
  let encoding := lowerStr (trimStr (content_encoding.getD ""))
  if encoding == "gzip" then
    match gunzip data with
    | some d => Except.ok d
    | none => Except.error (FetchError.decompress context)
  else if encoding == "deflate" then
    match inflate data with
    | some d => Except.ok d
    | none => Except.error (FetchError.decompress context)
  else
    match data with
    | a :: b :: _ =>
      if a == 31 && b == 139 then
        match gunzip data with
        | some d => Except.ok d
        | none => Except.error (FetchError.decompress context)
      else Except.ok data
    | _ => Except.ok data

/-- `_http_get`: throttle (the blocking wait runs and the last-request
timestamp is set from the clock, here the parameter `now`), fetch and
decode, enforce the per-artifact cap then the per-run cap, and on success
update the byte and request counters. -/
def http_get (gunzip inflate : List Nat → Option (List Nat))
    (net : String → NetResponse) (now : Rat) (s : SecClientState) (url : String) :
    Except FetchError (List Nat) × SecClientState :=
  let s1 := { s with last_request_ts := now }
  let resp := net url
  match decode_response_bytes gunzip inflate resp.body resp.content_encoding ("url=" ++ url) with
  | Except.error e => (Except.error e, s1)
  | Except.ok data =>
    let size := data.length
    if size > s1.max_file_size_bytes then
      (Except.error (FetchError.artifactTooLarge url size), s1)
    else if s1.total_downloaded_bytes + size > s1.max_total_download_bytes then
      (Except.error (FetchError.runBudgetExceeded url (s1.total_downloaded_bytes + size)), s1)
    else
      (Except.ok data,
        { s1 with total_downloaded_bytes := s1.total_downloaded_bytes + size,
                  request_count := s1.request_count + 1 })

/-- `SecClient.get`: a cache hit is decoded with no encoding header (only
the gzip-signature sniff applies) and returned with the client state
untouched; a miss goes through `_http_get` and a successful body is
written to the cache. -/
def client_get (gunzip inflate : List Nat → Option (List Nat))
    (net : String → NetResponse) (now : Rat) (s : SecClientState)
    (url : String) (use_cache : Bool) :
    Except FetchError (List Nat) × SecClientState :=
  match (if use_cache then cacheLookup s.cache url else none) with
  | some bs => (decode_response_bytes gunzip inflate bs none ("cache=" ++ url), s)
  | none =>
    match http_get gunzip inflate net now s url with
    | (Except.ok data, s2) => (Except.ok data, { s2 with cache := (url, data) :: s2.cache })
    | (e, s2) => (e, s2)

/-- Boolean lexicographic order from three key functions (Python
three-tuple comparison). -/
def lex3LE {α : Type} {β γ δ : Type} [LinearOrder β] [LinearOrder γ] [LinearOrder δ]
    (k1 : α → β) (k2 : α → γ) (k3 : α → δ) (a b : α) : Bool :=
  decide (k1 a < k1 b) || (decide (k1 a = k1 b) && lex2LE k2 k3 a b)

theorem lex3LE_trans {α β γ δ : Type} [LinearOrder β] [LinearOrder γ] [LinearOrder δ]
    (k1 : α → β) (k2 : α → γ) (k3 : α → δ) (a b c : α)
    (hab : lex3LE k1 k2 k3 a b) (hbc : lex3LE k1 k2 k3 b c) : lex3LE k1 k2 k3 a c := by
  simp only [lex3LE, Bool.or_eq_true, Bool.and_eq_true, decide_eq_true_eq] at *
  rcases hab with h1 | ⟨h1, h2⟩ <;> rcases hbc with h3 | ⟨h3, h4⟩
  · exact Or.inl (lt_trans h1 h3)
  · exact Or.inl (h3 ▸ h1)
  · exact Or.inl (h1 ▸ h3)
  · exact Or.inr ⟨h1.trans h3, lex2LE_trans k2 k3 a b c h2 h4⟩

theorem lex3LE_total {α β γ δ : Type} [LinearOrder β] [LinearOrder γ] [LinearOrder δ]
    (k1 : α → β) (k2 : α → γ) (k3 : α → δ) (a b : α) :
    lex3LE k1 k2 k3 a b || lex3LE k1 k2 k3 b a := by
  simp only [lex3LE, Bool.or_eq_true, Bool.and_eq_true, decide_eq_true_eq]
  rcases lt_trichotomy (k1 a) (k1 b) with h | h | h
  · exact Or.inl (Or.inl h)
  · have := lex2LE_total k2 k3 a b
    rcases Bool.or_eq_true _ _ |>.mp this with h2 | h2
    · exact Or.inl (Or.inr ⟨h, h2⟩)
    · exact Or.inr (Or.inr ⟨h.symm, h2⟩)
  · exact Or.inr (Or.inl h)

/-- A forecast guidance row as `extract_forecasted_capex` would emit it
(never produced by the assembler, which skips forecast extraction). -/
structure ForecastRow where
  value_min : Rat
  value_max : Rat
  unit : String
  timeframe : String
  source : String
  snippet : String
  location_hint : String
  confidence : Rat
  provenance : Provenance
  deriving DecidableEq, Repr

/-- The `segments_mode` configuration value, validated by
`build_financials` to be one of `none`, `annual`, `full`. -/
inductive SegmentsMode where
  | noneMode | annualMode | fullMode
  deriving DecidableEq, Repr

/-- String form of a segments mode, for the skip-reason message. -/
def modeStr : SegmentsMode → String
  | SegmentsMode.noneMode => "none"
  | SegmentsMode.annualMode => "annual"
  | SegmentsMode.fullMode => "full"

/-- Upper-casing for the fiscal-period label check. -/
def upperStr (s : String) : String := String.mk (s.data.map Char.toUpper)

/-- `fiscal_period_label`: `FY` for a 10-K, the filing's `fp` if it
upper-cases to Q1-Q4, else `Q?`. -/
def fiscal_period_label (f : Filing) : String :=
  if f.form == "10-K" then "FY"
  else if ["Q1", "Q2", "Q3", "Q4"].contains (upperStr (f.fp.getD "")) then f.fp.getD ""
  else "Q?"

/-- Python `x or default` on an optional integer (`f.fy or int(end[:4])`):
`None` and `0` fall to the default. -/
def pyIntOr (o : Option Int) (dflt : Int) : Int :=
  match o with
  | some y => if y = 0 then dflt else y
  | none => dflt

/-- Python `sorted(set(notes))`. -/
def sortedUnique (l : List String) : List String :=
  (l.eraseDups).mergeSort (fun a b => decide (a ≤ b))

/-- The filing sub-record of an assembled period. -/
structure PeriodFiling where
  form : String
  filing_date : String
  accession : String
  primary_doc : String
  deriving DecidableEq, Repr

/-- One assembled period record of the payload. -/
structure Period where
  fiscal_year : Int
  fiscal_period : String
  period_start : Option String
  period_end : String
  filing : PeriodFiling
  revenue : Option Metric
  revenue_by_segment : List SegmentRow
  profit_net_income : Option Metric
  profit_by_segment : List SegmentRow
  capex : Option Metric
  capex_by_segment : List SegmentRow
  forecasted_capex : List ForecastRow
  forecasted_capex_by_segment : List ForecastRow
  notes : List String
  missing_data : List MissingEntry
  deriving DecidableEq, Repr

/-- Ascending order on the final period sort key
`(fiscal_year, fiscal_period, period_end)`. -/
def periodLE : Period → Period → Bool :=
  lex3LE (fun p => p.fiscal_year) (fun p => p.fiscal_period) (fun p => p.period_end)

/-- The standard missing-data entry the assembler attaches in place of
forecast extraction. -/
def fcSkipEntry : MissingEntry :=
  ⟨"forecasted_capex", "Skipped to reduce download volume; textual filing artifacts are not downloaded."⟩

/-- The missing-data entry attached when segment extraction is skipped by
mode. -/
def segSkipEntry (mode : SegmentsMode) (f : Filing) : MissingEntry :=
  ⟨"segment_metrics", "Skipped due to segments_mode=" ++ modeStr mode ++ " for form " ++ f.form ++ "."⟩

/-- Loop body of `build_financials` (lines 468-487) for one filing.
Network-dependent inputs are arguments: the companyfacts table, and
segment extraction (which fetches instance documents) as the oracle
`segOracle`. -/
def build_period (cf : CompanyFacts) (mode : SegmentsMode)
    (segOracle : Filing → SegResult × List MissingEntry) (f : Filing) : Period :=
  let pr := extract_primary_metrics cf f
  let doSeg := mode == SegmentsMode.fullMode ||
    (mode == SegmentsMode.annualMode && f.form == "10-K")
  let seg := if doSeg then segOracle f
    else ({ revenue_by_segment := [], profit_by_segment := [], capex_by_segment := [] },
          [segSkipEntry mode f])
  let endD := sortDate f
  { fiscal_year := pyIntOr f.fy (yearOf endD),
    fiscal_period := fiscal_period_label f,
    period_start := none, period_end := endD,
    filing := { form := f.form, filing_date := f.filing_date,
                accession := f.accession, primary_doc := f.primary_doc },
    revenue := pr.revenue, revenue_by_segment := seg.1.revenue_by_segment,
    profit_net_income := pr.profit_net_income, profit_by_segment := seg.1.profit_by_segment,
    capex := pr.capex, capex_by_segment := seg.1.capex_by_segment,
    forecasted_capex := [], forecasted_capex_by_segment := [],
    notes := sortedUnique pr.notes,
    missing_data := pr.missing ++ seg.2 ++ [fcSkipEntry] }

/-- The periods list of `build_financials`: one period per scoped filing,
sorted ascending by `(fiscal_year, fiscal_period, period_end)`. -/
def build_periods (cf : CompanyFacts) (mode : SegmentsMode)
    (segOracle : Filing → SegResult × List MissingEntry)
    (filings : List Filing) : List Period :=
  (filings.map (build_period cf mode segOracle)).mergeSort periodLE

/-! Helper lemmas about fact selection. -/

theorem quarterFiltered_ne_nil (cands : List RawFact) (filing : Filing)
    (hne : cands ≠ []) : (quarterFiltered cands filing).1 ≠ [] := by
  by_cases hform : (filing.form == "10-Q") = true
  · by_cases hq : (cands.filter (fun f => decide (durOr f 999 ≤ 105))).isEmpty = true
    · simpa [quarterFiltered, hform, hq] using hne
    · have hq2 : (cands.filter fun f => decide (durOr f 999 ≤ 105)) ≠ [] := by
        simpa [List.isEmpty_iff] using hq
      simpa [quarterFiltered, hform, hq] using hq2
  · simpa [quarterFiltered, hform] using hne

theorem quarterFiltered_all_ytd (cands : List RawFact) (filing : Filing)
    (hform : filing.form = "10-Q")
    (hall : ∀ f ∈ cands, ¬(durOr f 999 ≤ 105)) :
    quarterFiltered cands filing = (cands, [ytdNote]) := by
  have hq : cands.filter (fun f => decide (durOr f 999 ≤ 105)) = [] := by
    rw [List.filter_eq_nil_iff]
    intro a ha
    simpa using hall a ha
  simp [quarterFiltered, hform, hq]

theorem select_fst_of_ne_nil (facts : List RawFact) (filing : Filing)
    (hne : baseCands facts filing ≠ []) :
    (select_fact_for_filing facts filing).1 =
      ((quarterFiltered (baseCands facts filing) filing).1.mergeSort selLE).head? := by
  unfold select_fact_for_filing
  simp [List.isEmpty_eq_false_iff_exists_mem.mpr
    (List.exists_mem_of_ne_nil _ hne)]

theorem select_snd_of_ne_nil (facts : List RawFact) (filing : Filing)
    (hne : baseCands facts filing ≠ []) :
    (select_fact_for_filing facts filing).2 =
      (quarterFiltered (baseCands facts filing) filing).2 := by
  unfold select_fact_for_filing
  simp [List.isEmpty_eq_false_iff_exists_mem.mpr
    (List.exists_mem_of_ne_nil _ hne)]

/-! C1 and C2 fixtures: a quarterly filing with candidate facts of
durations 40, 95 and 200 days, and an annual filing with two candidates
tied on duration with different end dates. -/

/-- Quarterly filing of the duration-selection scenario. -/
def qFiling : Filing :=
  { form := "10-Q", filing_date := "2024-08-01", report_date := some "2024-06-30",
    accession := "a1", primary_doc := "x.htm", fy := some 2024, fp := some "Q3" }

/-- Candidate with a 40-day duration. -/
def fact40 : RawFact :=
  { accn := some "a1", start := some "2024-05-21", «end» := some "2024-06-30",
    form := some "10-Q", val := some 40 }

/-- Candidate with a 95-day duration. -/
def fact95 : RawFact :=
  { accn := some "a1", start := some "2024-03-27", «end» := some "2024-06-30",
    form := some "10-Q", val := some 95 }

/-- Candidate with a 200-day duration. -/
def fact200 : RawFact :=
  { accn := some "a1", start := some "2023-12-13", «end» := some "2024-06-30",
    form := some "10-Q", val := some 200 }

/-- C1 counterexample: with candidate durations 40, 95 and 200 days on a
quarterly filing, `_select_fact_for_filing` chooses the 40-day candidate,
not the 95-day one the claim names. -/
theorem C1_counterexample :
    (select_fact_for_filing [fact40, fact95, fact200] qFiling).1 = some fact40 ∧
    duration_days fact40 = some 40 ∧
    duration_days fact95 = some 95 ∧
    duration_days fact200 = some 200 ∧
    (select_fact_for_filing [fact40, fact95, fact200] qFiling).1 ≠ some fact95 := by
  refine ⟨?_, by decide, by decide, by decide, ?_⟩ <;>
    simp +decide [select_fact_for_filing, baseCands, accessionCands, fallbackCands,
      quarterFiltered, selLE, lex2LE, selDur, selEnd, durOr, duration_days, parseDate,
      optStrTruthy, splitOnChar, isDigits, decDigitsVal, daysFromCivil, ytdNote,
      List.mergeSort, List.splitInTwo, List.splitAt, List.splitAt.go, List.merge,
      fact40, fact95, fact200, qFiling]

/-- C1 (amended): with candidate durations 40, 95 and 200 days on a
quarterly filing, duration-based selection chooses the 40-day candidate —
the one of shortest duration not exceeding 105 days; and for every
quarterly filing all of whose candidates exceed 105 days, all candidates
are retained and the YTD-contamination note is appended. -/
theorem C1_selection_amended :
    (select_fact_for_filing [fact40, fact95, fact200] qFiling = (some fact40, [])) ∧
    (∀ (facts : List RawFact) (filing : Filing),
      filing.form = "10-Q" →
      baseCands facts filing ≠ [] →
      (∀ f ∈ baseCands facts filing, ¬(durOr f 999 ≤ 105)) →
      (quarterFiltered (baseCands facts filing) filing).1 = baseCands facts filing ∧
      (select_fact_for_filing facts filing).2 = [ytdNote]) := by
  constructor
  · simp +decide [select_fact_for_filing, baseCands, accessionCands, fallbackCands,
      quarterFiltered, selLE, lex2LE, selDur, selEnd, durOr, duration_days, parseDate,
      optStrTruthy, splitOnChar, isDigits, decDigitsVal, daysFromCivil, ytdNote,
      List.mergeSort, List.splitInTwo, List.splitAt, List.splitAt.go, List.merge,
      fact40, fact95, fact200, qFiling]
  · intro facts filing hform hne hall
    have hqf := quarterFiltered_all_ytd (baseCands facts filing) filing hform hall
    refine ⟨by rw [hqf], ?_⟩
    rw [select_snd_of_ne_nil facts filing hne, hqf]

/-- C1 witness: a single 200-day candidate on the quarterly filing is
retained with the YTD note. -/
theorem C1_selection_witness :
    (quarterFiltered (baseCands [fact200] qFiling) qFiling).1 = baseCands [fact200] qFiling ∧
    (select_fact_for_filing [fact200] qFiling).2 = [ytdNote] :=
  C1_selection_amended.2 [fact200] qFiling (by decide) (by decide) (by decide)

/-- Annual filing of the tie-break scenario. -/
def kFiling : Filing :=
  { form := "10-K", filing_date := "2024-08-30", report_date := some "2024-06-30",
    accession := "k1", primary_doc := "k.htm", fy := some 2024, fp := some "FY" }

/-- 91-day candidate ending 2024-04-01. -/
def factEarly : RawFact :=
  { accn := some "k1", start := some "2024-01-01", «end» := some "2024-04-01",
    form := some "10-K", val := some 1 }

/-- 91-day candidate ending 2024-07-01. -/
def factLate : RawFact :=
  { accn := some "k1", start := some "2024-04-01", «end» := some "2024-07-01",
    form := some "10-K", val := some 2 }

/-- C2 counterexample: two candidates tied on duration; selection returns
the one with the earliest end date, not the latest as the claim states. -/
theorem C2_counterexample :
    (select_fact_for_filing [factEarly, factLate] kFiling).1 = some factEarly ∧
    durOr factEarly 9999 = durOr factLate 9999 ∧
    selEnd factEarly < selEnd factLate ∧
    (select_fact_for_filing [factEarly, factLate] kFiling).1 ≠ some factLate := by
  refine ⟨?_, by decide, by rw [String.lt_iff_toList_lt]; decide, ?_⟩ <;>
    simp +decide [select_fact_for_filing, baseCands, accessionCands, fallbackCands,
      quarterFiltered, selLE, lex2LE, selDur, selEnd, durOr, duration_days, parseDate,
      optStrTruthy, splitOnChar, isDigits, decDigitsVal, daysFromCivil,
      List.mergeSort, List.splitInTwo, List.splitAt, List.splitAt.go, List.merge,
      factEarly, factLate, kFiling]

/-- C2 (amended): for every non-empty candidate pool remaining after
accession/duration filtering, selection returns a candidate that is
minimal for the sort key (effective duration, end date) — minimal
effective duration (`None`/`0` counting as 9999), ties broken toward the
earliest end date. -/
theorem C2_selection_amended (facts : List RawFact) (filing : Filing)
    (hne : baseCands facts filing ≠ []) :
    ∃ ch, (select_fact_for_filing facts filing).1 = some ch ∧
      ch ∈ (quarterFiltered (baseCands facts filing) filing).1 ∧
      ∀ g ∈ (quarterFiltered (baseCands facts filing) filing).1, selLE ch g := by
  have hpne := quarterFiltered_ne_nil (baseCands facts filing) filing hne
  obtain ⟨a, hhead, hmem, hmin⟩ :=
    mergeSort_head_min selLE (lex2LE_trans selDur selEnd) (lex2LE_total selDur selEnd)
      ((quarterFiltered (baseCands facts filing) filing).1) hpne
  exact ⟨a, by rw [select_fst_of_ne_nil facts filing hne]; exact hhead, hmem, hmin⟩

/-- C2 witness: the tie-break scenario instantiated. -/
theorem C2_selection_witness :
    ∃ ch, (select_fact_for_filing [factEarly, factLate] kFiling).1 = some ch ∧
      ch ∈ (quarterFiltered (baseCands [factEarly, factLate] kFiling) kFiling).1 ∧
      ∀ g ∈ (quarterFiltered (baseCands [factEarly, factLate] kFiling) kFiling).1,
        selLE ch g :=
  C2_selection_amended [factEarly, factLate] kFiling (by decide)

/-! Helper lemmas about the metric helper of `extract_primary_metrics`. -/

theorem select_none_snd (facts : List RawFact) (filing : Filing)
    (h : (select_fact_for_filing facts filing).1 = none) :
    (select_fact_for_filing facts filing).2 = [] := by
  by_cases hne : baseCands facts filing = []
  · simp [select_fact_for_filing, hne]
  · exfalso
    have hpne := quarterFiltered_ne_nil (baseCands facts filing) filing hne
    rw [select_fst_of_ne_nil facts filing hne] at h
    have hlen : ((quarterFiltered (baseCands facts filing) filing).1.mergeSort selLE) ≠ [] := by
      intro h0
      exact hpne (by simpa using congrArg List.length h0)
    obtain ⟨a, t, ht⟩ := List.exists_cons_of_ne_nil hlen
    rw [ht] at h
    simp at h

theorem metricGo_fail (cf : CompanyFacts) (filing : Filing) (name : String)
    (cd : Option String) (allTags : List String) :
    ∀ (tags : List String) (notes : List String),
      (∀ tag ∈ tags, (select_fact_for_filing (lookupTag cf tag) filing).1 = none) →
      metricGo cf filing name cd allTags tags notes =
        { result := none, notes := notes, missing := [⟨name, missReason allTags⟩] }
  | [], notes, _ => rfl
  | tag :: rest, notes, h => by
    have htag := h tag (List.mem_cons_self tag rest)
    have hsnd := select_none_snd (lookupTag cf tag) filing htag
    have ih := metricGo_fail cf filing name cd allTags rest notes
      (fun t ht => h t (List.mem_cons_of_mem tag ht))
    simp [metricGo, htag, hsnd, ih]

theorem metricGo_field (cf : CompanyFacts) (filing : Filing) (name : String)
    (cd : Option String) (allTags : List String) :
    ∀ (tags : List String) (notes : List String) (e : MissingEntry),
      e ∈ (metricGo cf filing name cd allTags tags notes).missing → e.field = name
  | [], notes, e, h => by
    simp [metricGo] at h
    rw [h]
  | tag :: rest, notes, e, h => by
    rcases h1 : (select_fact_for_filing (lookupTag cf tag) filing).1 with _ | fact
    · simp only [metricGo, h1] at h
      exact metricGo_field cf filing name cd allTags rest _ e h
    · rcases h2 : fact.val with _ | v
      · simp only [metricGo, h1, h2] at h
        exact metricGo_field cf filing name cd allTags rest _ e h
      · simp only [metricGo, h1, h2] at h
        simp at h

theorem filter_field_ne {cf : CompanyFacts} {filing : Filing}
    {name other : String} {cd : Option String} {allTags tags notes : List String}
    (hne : ¬name = other) :
    (metricGo cf filing name cd allTags tags notes).missing.filter
      (fun e => e.field == other) = [] := by
  rw [List.filter_eq_nil_iff]
  intro e he
  have := metricGo_field cf filing name cd allTags tags notes e he
  simp [this, hne]

/-- C3 counterexample: with an empty facts table (so no metric matches any
tag), the capex slot is null but the missing-data list carries two entries
for field `capex` — one per tag tier — not exactly one entry naming all
attempted tags. -/
theorem C3_counterexample :
    (extract_primary_metrics ⟨[]⟩ kFiling).capex = none ∧
    ((extract_primary_metrics ⟨[]⟩ kFiling).missing.countP
      (fun e => e.field == "capex")) = 2 := by
  constructor <;> decide

/-- C3 (amended): a metric with no selectable fact under any alias tag is
null and reported in missing-data — revenue and net income with exactly
one entry naming the metric and all its attempted tags; capex, whose two
tag tiers are separate extractor calls, with exactly two entries for field
`capex`, one naming the primary tag and one the fallback tag. -/
theorem C3_missing_amended (cf : CompanyFacts) (filing : Filing) :
    ((∀ tag ∈ revenueTags,
        (select_fact_for_filing (lookupTag cf tag) filing).1 = none) →
      (extract_primary_metrics cf filing).revenue = none ∧
      (extract_primary_metrics cf filing).missing.filter
          (fun e => e.field == "revenue") = [⟨"revenue", missReason revenueTags⟩]) ∧
    ((∀ tag ∈ profitTags,
        (select_fact_for_filing (lookupTag cf tag) filing).1 = none) →
      (extract_primary_metrics cf filing).profit_net_income = none ∧
      (extract_primary_metrics cf filing).missing.filter
          (fun e => e.field == "profit_net_income") =
        [⟨"profit_net_income", missReason profitTags⟩]) ∧
    ((∀ tag ∈ capexPrimaryTags ++ capexFallbackTags,
        (select_fact_for_filing (lookupTag cf tag) filing).1 = none) →
      (extract_primary_metrics cf filing).capex = none ∧
      (extract_primary_metrics cf filing).missing.filter
          (fun e => e.field == "capex") =
        [⟨"capex", missReason capexPrimaryTags⟩,
         ⟨"capex", missReason capexFallbackTags⟩]) := by
  refine ⟨?_, ?_, ?_⟩
  · intro h
    have hrev := metricGo_fail cf filing "revenue" none revenueTags revenueTags [] h
    unfold extract_primary_metrics
    rcases hc : (metricGo cf filing "capex" (some "cash_paid_for_ppe")
        capexPrimaryTags capexPrimaryTags []).result with _ | m <;>
      simp +decide [metricOne, hc, hrev, List.filter_append, filter_field_ne]
  · intro h
    have hprof := metricGo_fail cf filing "profit_net_income" none profitTags profitTags [] h
    unfold extract_primary_metrics
    rcases hc : (metricGo cf filing "capex" (some "cash_paid_for_ppe")
        capexPrimaryTags capexPrimaryTags []).result with _ | m <;>
      simp +decide [metricOne, hc, hprof, List.filter_append, filter_field_ne]
  · intro h
    have h1 : ∀ tag ∈ capexPrimaryTags,
        (select_fact_for_filing (lookupTag cf tag) filing).1 = none :=
      fun t ht => h t (List.mem_append_left _ ht)
    have h2 : ∀ tag ∈ capexFallbackTags,
        (select_fact_for_filing (lookupTag cf tag) filing).1 = none :=
      fun t ht => h t (List.mem_append_right _ ht)
    have hcap1 := metricGo_fail cf filing "capex" (some "cash_paid_for_ppe")
      capexPrimaryTags capexPrimaryTags [] h1
    have hcap2 := metricGo_fail cf filing "capex" (some "capital_expenditures_fallback")
      capexFallbackTags capexFallbackTags [] h2
    unfold extract_primary_metrics
    simp +decide [metricOne, hcap1, hcap2, List.filter_append, filter_field_ne]

/-- C3 witness: the empty facts table instantiates all three amended
branches. -/
theorem C3_missing_witness :
    (extract_primary_metrics ⟨[]⟩ kFiling).revenue = none ∧
    (extract_primary_metrics ⟨[]⟩ kFiling).missing.filter
        (fun e => e.field == "revenue") = [⟨"revenue", missReason revenueTags⟩] ∧
    (extract_primary_metrics ⟨[]⟩ kFiling).missing.filter
        (fun e => e.field == "capex") =
      [⟨"capex", missReason capexPrimaryTags⟩,
       ⟨"capex", missReason capexFallbackTags⟩] := by
  refine ⟨((C3_missing_amended ⟨[]⟩ kFiling).1 (by decide)).1,
    ((C3_missing_amended ⟨[]⟩ kFiling).1 (by decide)).2,
    ((C3_missing_amended ⟨[]⟩ kFiling).2.2 (by decide)).2⟩

/-- C4: when the primary capex tag selects nothing but the fallback tag
selects a fact with a value, the capex slot is populated (tagged with the
fallback capex definition) while the missing-data list still carries the
primary-tier entry for field `capex`. -/
theorem C4_capex_fallback (cf : CompanyFacts) (filing : Filing) (f : RawFact) (v : Rat)
    (hp : (select_fact_for_filing
      (lookupTag cf "PaymentsToAcquirePropertyPlantAndEquipment") filing).1 = none)
    (hf : (select_fact_for_filing (lookupTag cf "CapitalExpenditures") filing).1 = some f)
    (hv : f.val = some v) :
    ∃ m, (extract_primary_metrics cf filing).capex = some m ∧
      m.capex_definition = some "capital_expenditures_fallback" ∧
      m.xbrl_tag = "CapitalExpenditures" ∧
      (⟨"capex", missReason capexPrimaryTags⟩ : MissingEntry) ∈
        (extract_primary_metrics cf filing).missing := by
  have hcap1 := metricGo_fail cf filing "capex" (some "cash_paid_for_ppe")
    capexPrimaryTags capexPrimaryTags []
    (by intro t ht; simp [capexPrimaryTags] at ht; subst ht; exact hp)
  have hcap2 : metricGo cf filing "capex" (some "capital_expenditures_fallback")
      capexFallbackTags capexFallbackTags [] =
      { result := some
          { value := v, unit := "USD", xbrl_tag := "CapitalExpenditures", source := "xbrl",
            confidence := (95 : Rat) / 100,
            provenance :=
              { filing_type := filing.form, accession := filing.accession,
                filing_date := filing.filing_date,
                source_ref := "us-gaap:" ++ "CapitalExpenditures", unit := "USD" },
            capex_definition := some "capital_expenditures_fallback" },
        notes := [] ++ (select_fact_for_filing (lookupTag cf "CapitalExpenditures") filing).2,
        missing := [] } := by
    simp [capexFallbackTags, metricGo, hf, hv, optStrTruthy]
  unfold extract_primary_metrics
  simp only [metricOne]
  rw [hcap1, hcap2]
  refine ⟨_, rfl, rfl, rfl, ?_⟩
  simp

/-- C4 witness fixtures: a filing whose companyfacts carry only the
fallback capex tag. -/
def c4Filing : Filing :=
  { form := "10-K", filing_date := "2023-09-15", report_date := some "2023-07-31",
    accession := "c4a", primary_doc := "d.htm", fy := some 2023, fp := some "FY" }

/-- The fallback-tier fact of the C4 scenario. -/
def c4Fact : RawFact :=
  { accn := some "c4a", start := some "2022-08-01", «end» := some "2023-07-31",
    form := some "10-K", val := some 500 }

/-- Companyfacts carrying only `CapitalExpenditures`. -/
def c4Facts : CompanyFacts := ⟨[("CapitalExpenditures", [c4Fact])]⟩

/-- C4 witness: the fallback scenario instantiated. -/
theorem C4_capex_fallback_witness :
    ∃ m, (extract_primary_metrics c4Facts c4Filing).capex = some m ∧
      m.capex_definition = some "capital_expenditures_fallback" ∧
      m.xbrl_tag = "CapitalExpenditures" ∧
      (⟨"capex", missReason capexPrimaryTags⟩ : MissingEntry) ∈
        (extract_primary_metrics c4Facts c4Filing).missing :=
  C4_capex_fallback c4Facts c4Filing c4Fact 500 (by decide)
    (by simp +decide [select_fact_for_filing, baseCands, accessionCands, fallbackCands,
      quarterFiltered, selLE, lex2LE, selDur, selEnd, durOr, duration_days, parseDate,
      optStrTruthy, splitOnChar, isDigits, decDigitsVal, daysFromCivil, lookupTag,
      List.mergeSort, List.splitInTwo, List.splitAt, List.splitAt.go, List.merge,
      c4Facts, c4Fact, c4Filing])
    (by decide)

/-- All rows of a segment-extraction result, across the three keys. -/
def allSegRows (r : SegResult) : List SegmentRow :=
  r.revenue_by_segment ++ r.profit_by_segment ++ r.capex_by_segment

/-- C5: an instance document with one context carrying exactly one
dimensional member and an end date equal to the filing's report date, and
one fact element referencing that context with a tag in a metric tag-set,
yields exactly one SegmentMetric when the fact's text is a plain numeric
literal — with segment label the member's local name after stripping any
namespace prefix — and none when it is not. -/
theorem C5_segment_single (ref : String) (filing : Filing) (c : XmlContext)
    (m : ExplicitMember) (f : XmlElem)
    (hmem : c.members = [m])
    (hend : c.endDate = filing.report_date)
    (hcr : f.contextRef = some c.id)
    (htag : localName f.tag ∈ segRevenueTags ++ segProfitTags ++ segCapexTags) :
    (numLit (trimStr (f.text.getD "")) = true →
      ∃ row, allSegRows (extract_segment_metrics_core ref filing [c] [f]).1 = [row] ∧
        row.segment = lastSplit ':' (trimStr m.text) ∧
        row.member = trimStr m.text ∧
        row.dimension = m.dimension) ∧
    (numLit (trimStr (f.text.getD "")) = false →
      allSegRows (extract_segment_metrics_core ref filing [c] [f]).1 = []) := by
  have hctx : ctxLookup [c] c.id = some c := by simp [ctxLookup]
  simp only [segRevenueTags, segProfitTags, segCapexTags, List.mem_append,
    List.mem_cons, List.not_mem_nil, or_false] at htag
  constructor
  · intro hnum
    rcases htag with ((h | h | h) | h) | h | h <;>
      simp [extract_segment_metrics_core, allSegRows, segRowsElem, hcr, hctx,
        hmem, ctxMembers, hend, hnum, h, segRevenueTags, segProfitTags,
        segCapexTags]
  · intro hnum
    rcases htag with ((h | h | h) | h) | h | h <;>
      simp [extract_segment_metrics_core, allSegRows, segRowsElem, hcr, hctx,
        hmem, ctxMembers, hend, hnum, h, segRevenueTags, segProfitTags,
        segCapexTags]

/-- C5 witness member: a namespaced segment member. -/
def c5Member : ExplicitMember :=
  ⟨"srt:StatementBusinessSegmentsAxis", " apple:AmericasSegmentMember "⟩

/-- C5 witness context. -/
def c5Ctx : XmlContext := ⟨"c-20", [c5Member], some "2024-06-30"⟩

/-- C5 witness filing. -/
def c5Filing : Filing :=
  { form := "10-K", filing_date := "2024-08-30", report_date := some "2024-06-30",
    accession := "c5a", primary_doc := "p.htm", fy := some 2024, fp := some "FY" }

/-- C5 witness fact element: a revenue fact with numeric text. -/
def c5Fact : XmlElem := ⟨"Revenues", some "c-20", some "12345"⟩

/-- C5 witness: the single-member scenario instantiated. -/
theorem C5_segment_witness :
    ∃ row, allSegRows (extract_segment_metrics_core "inst.xml" c5Filing [c5Ctx] [c5Fact]).1
        = [row] ∧
      row.segment = lastSplit ':' (trimStr c5Member.text) ∧
      row.member = trimStr c5Member.text ∧
      row.dimension = c5Member.dimension :=
  (C5_segment_single "inst.xml" c5Filing c5Ctx c5Member c5Fact (by decide) (by decide)
    (by decide) (by decide)).1 (by decide)

/-! C6: `limit_filings_scope`. -/

theorem qDescLE_trans (a b c : Filing) (h1 : qDescLE a b) (h2 : qDescLE b c) :
    qDescLE a c := by
  simp only [qDescLE, decide_eq_true_eq] at *
  exact le_trans h2 h1

theorem qDescLE_total (a b : Filing) : qDescLE a b || qDescLE b a := by
  simp only [qDescLE, Bool.or_eq_true, decide_eq_true_eq]
  exact (le_total (sortDate b) (sortDate a))

/-- C6: `limit_filings_scope` keeps every annual filing, returns at most
`N` quarterly filings — each at least as recent (by report-or-filing date)
as every quarterly filing it dropped — and emits the result sorted
ascending by (report-or-filing date, form). -/
theorem C6_limit_scope (filings : List Filing) (N : Nat) :
    (∀ f ∈ filings, f.form = "10-K" → f ∈ limit_filings_scope filings N) ∧
    ((limit_filings_scope filings N).countP (fun f => f.form == "10-Q") ≤ N) ∧
    (∀ q ∈ limit_filings_scope filings N, q.form = "10-Q" →
      ∀ q2 ∈ filings, q2.form = "10-Q" → q2 ∉ limit_filings_scope filings N →
        sortDate q2 ≤ sortDate q) ∧
    List.Pairwise (fun a b => filingLE a b) (limit_filings_scope filings N) := by
  have hout : limit_filings_scope filings N =
      ((filings.filter (fun f => f.form == "10-K")) ++
        ((filings.filter (fun f => f.form == "10-Q")).mergeSort qDescLE).take N).mergeSort
        filingLE := rfl
  have hperm := List.mergeSort_perm
    ((filings.filter (fun f => f.form == "10-K")) ++
      ((filings.filter (fun f => f.form == "10-Q")).mergeSort qDescLE).take N) filingLE
  refine ⟨?_, ?_, ?_, ?_⟩
  · intro f hf hform
    rw [hout, List.mem_mergeSort]
    exact List.mem_append_left _ (List.mem_filter.mpr ⟨hf, by simp [hform]⟩)
  · have hA : (filings.filter (fun f => f.form == "10-K")).countP
        (fun f => f.form == "10-Q") = 0 := by
      rw [List.countP_eq_zero]
      intro a ha
      have := (List.mem_filter.mp ha).2
      simp only [beq_iff_eq] at this ⊢
      simp [this]
    rw [hout, hperm.countP_eq, List.countP_append, hA, Nat.zero_add]
    exact le_trans (List.countP_le_length _) (List.length_take_le _ _)
  · intro q hq hqform q2 hq2 hq2form hq2out
    have hqmem : q ∈ (filings.filter (fun f => f.form == "10-K")) ++
        ((filings.filter (fun f => f.form == "10-Q")).mergeSort qDescLE).take N := by
      rw [hout, List.mem_mergeSort] at hq
      exact hq
    have hqtake : q ∈ ((filings.filter (fun f => f.form == "10-Q")).mergeSort qDescLE).take N := by
      rcases List.mem_append.mp hqmem with hqa | hqt
      · exfalso
        have := (List.mem_filter.mp hqa).2
        rw [hqform] at this
        simp at this
      · exact hqt
    have hq2Q : q2 ∈ (filings.filter (fun f => f.form == "10-Q")).mergeSort qDescLE := by
      rw [List.mem_mergeSort]
      exact List.mem_filter.mpr ⟨hq2, by simp [hq2form]⟩
    have hq2drop : q2 ∈ ((filings.filter (fun f => f.form == "10-Q")).mergeSort qDescLE).drop N := by
      rcases List.mem_append.mp
          ((List.take_append_drop N _ ▸ hq2Q :
            q2 ∈ ((filings.filter (fun f => f.form == "10-Q")).mergeSort qDescLE).take N ++
              ((filings.filter (fun f => f.form == "10-Q")).mergeSort qDescLE).drop N))
        with htk | hdp
      · exfalso
        apply hq2out
        rw [hout, List.mem_mergeSort]
        exact List.mem_append_right _ htk
      · exact hdp
    have hsorted := List.sorted_mergeSort qDescLE_trans qDescLE_total
      (filings.filter (fun f => f.form == "10-Q"))
    rw [← List.take_append_drop N
      ((filings.filter (fun f => f.form == "10-Q")).mergeSort qDescLE)] at hsorted
    have hcross := (List.pairwise_append.mp hsorted).2.2 q hqtake q2 hq2drop
    simpa [qDescLE] using hcross
  · rw [hout]
    exact List.sorted_mergeSort
      (fun a b c => lex2LE_trans sortDate (fun f => f.form) a b c)
      (lex2LE_total sortDate (fun f => f.form)) _

/-- C6 witness annual filing. -/
def c6A : Filing :=
  { form := "10-K", filing_date := "2024-09-01", report_date := some "2024-06-30",
    accession := "na", primary_doc := "a.htm", fy := some 2024, fp := some "FY" }

/-- C6 witness recent quarterly filing. -/
def c6Q1 : Filing :=
  { form := "10-Q", filing_date := "2024-05-01", report_date := some "2024-03-31",
    accession := "nq1", primary_doc := "q1.htm", fy := some 2024, fp := some "Q2" }

/-- C6 witness older quarterly filing. -/
def c6Q2 : Filing :=
  { form := "10-Q", filing_date := "2024-02-01", report_date := some "2023-12-31",
    accession := "nq2", primary_doc := "q2.htm", fy := some 2024, fp := some "Q1" }

/-- C6 witness: with a quarterly cap of one, the annual filing is kept, at
most one quarterly filing remains, and the dropped quarterly is no more
recent than the kept one. -/
theorem C6_limit_scope_witness :
    c6A ∈ limit_filings_scope [c6A, c6Q1, c6Q2] 1 ∧
    (limit_filings_scope [c6A, c6Q1, c6Q2] 1).countP (fun f => f.form == "10-Q") ≤ 1 ∧
    sortDate c6Q2 ≤ sortDate c6Q1 :=
  ⟨(C6_limit_scope [c6A, c6Q1, c6Q2] 1).1 c6A (by decide) (by decide),
   (C6_limit_scope [c6A, c6Q1, c6Q2] 1).2.1,
   (C6_limit_scope [c6A, c6Q1, c6Q2] 1).2.2.1 c6Q1
     (by simp +decide [limit_filings_scope, qDescLE, filingLE, lex2LE, sortDate,
       c6A, c6Q1, c6Q2, List.mergeSort, List.splitInTwo, List.splitAt,
       List.splitAt.go, List.merge])
     (by decide) c6Q2 (by decide) (by decide)
     (by simp +decide [limit_filings_scope, qDescLE, filingLE, lex2LE, sortDate,
       c6A, c6Q1, c6Q2, List.mergeSort, List.splitInTwo, List.splitAt,
       List.splitAt.go, List.merge])⟩

/-! C7: `collect_filings`. -/

theorem filingOfEntry_inj {a b : SubmissionEntry}
    (h : filingOfEntry a = filingOfEntry b) : a = b := by
  cases a
  cases b
  simpa [filingOfEntry, Filing.mk.injEq, SubmissionEntry.mk.injEq] using h

theorem staleEntry_iff (minYear : Int) (e : SubmissionEntry) :
    staleEntry minYear e = true ↔
      (yearOf e.filingDate < minYear ∧ ∃ y, e.fy = some y ∧ y < minYear) := by
  cases hfy : e.fy with
  | none => simp [staleEntry, hfy]
  | some y => simp [staleEntry, hfy]

/-- C7: `collect_filings` returns only the two permitted form types; an
entry of the catalog appears in the output exactly when its form is
permitted and it is not stale by both signals (filing-date year, and
fiscal year when known, both before the cutoff); and the output is sorted
ascending by (report-or-filing date, form). -/
theorem C7_collect_filings (recent : List SubmissionEntry) (currentYear years : Int) :
    (∀ f ∈ collect_filings recent currentYear years,
      f.form = "10-K" ∨ f.form = "10-Q") ∧
    (∀ e ∈ recent,
      (filingOfEntry e ∈ collect_filings recent currentYear years ↔
        (e.form = "10-K" ∨ e.form = "10-Q") ∧
        ¬(yearOf e.filingDate < currentYear - years ∧
          ∃ y, e.fy = some y ∧ y < currentYear - years))) ∧
    List.Pairwise (fun a b => filingLE a b) (collect_filings recent currentYear years) := by
  have hout : collect_filings recent currentYear years =
      (((recent.filter (fun e => e.form == "10-K" || e.form == "10-Q")).filter
        (fun e => !staleEntry (currentYear - years) e)).map filingOfEntry).mergeSort
        filingLE := rfl
  refine ⟨?_, ?_, ?_⟩
  · intro f hf
    rw [hout, List.mem_mergeSort] at hf
    obtain ⟨e, he, rfl⟩ := List.mem_map.mp hf
    have h1 := (List.mem_filter.mp (List.mem_filter.mp he).1).2
    rcases Bool.or_eq_true _ _ |>.mp h1 with h | h
    · exact Or.inl (by simpa [filingOfEntry] using beq_iff_eq.mp h)
    · exact Or.inr (by simpa [filingOfEntry] using beq_iff_eq.mp h)
  · intro e he
    rw [hout, List.mem_mergeSort]
    constructor
    · intro hmem
      obtain ⟨e2, he2, heq⟩ := List.mem_map.mp hmem
      obtain rfl := filingOfEntry_inj heq
      have h1 := (List.mem_filter.mp (List.mem_filter.mp he2).1).2
      have h2 := (List.mem_filter.mp he2).2
      refine ⟨?_, ?_⟩
      · rcases Bool.or_eq_true _ _ |>.mp h1 with h | h
        · exact Or.inl (beq_iff_eq.mp h)
        · exact Or.inr (beq_iff_eq.mp h)
      · intro hstale
        have := (staleEntry_iff (currentYear - years) e2).mpr hstale
        rw [this] at h2
        simp at h2
    · rintro ⟨hform, hfresh⟩
      apply List.mem_map.mpr
      refine ⟨e, ?_, rfl⟩
      apply List.mem_filter.mpr
      refine ⟨List.mem_filter.mpr ⟨he, ?_⟩, ?_⟩
      · rcases hform with h | h <;> simp [h]
      · have : staleEntry (currentYear - years) e ≠ true := by
          intro h
          exact hfresh ((staleEntry_iff (currentYear - years) e).mp h)
        simp [Bool.not_eq_true] at this
        simp [this]
  · rw [hout]
    exact List.sorted_mergeSort
      (fun a b c => lex2LE_trans sortDate (fun f => f.form) a b c)
      (lex2LE_total sortDate (fun f => f.form)) _

/-- C7 witness: a fresh annual entry. -/
def c7K : SubmissionEntry :=
  { form := "10-K", filingDate := "2024-11-01", reportDate := some "2024-09-28",
    accessionNumber := "1", primaryDocument := "a.htm", fy := some 2024, fp := some "FY" }

/-- C7 witness: an unsupported form. -/
def c7Other : SubmissionEntry :=
  { form := "8-K", filingDate := "2024-10-01", reportDate := some "2024-10-01",
    accessionNumber := "2", primaryDocument := "b.htm", fy := some 2024, fp := some "" }

/-- C7 witness: a quarterly entry stale by both signals. -/
def c7Old : SubmissionEntry :=
  { form := "10-Q", filingDate := "2015-05-01", reportDate := some "2015-03-31",
    accessionNumber := "3", primaryDocument := "c.htm", fy := some 2015, fp := some "Q1" }

/-- C7 witness: the fresh annual entry is kept and the doubly-stale
quarterly entry is excluded. -/
theorem C7_collect_filings_witness :
    filingOfEntry c7K ∈ collect_filings [c7K, c7Other, c7Old] 2025 5 ∧
    filingOfEntry c7Old ∉ collect_filings [c7K, c7Other, c7Old] 2025 5 :=
  ⟨((C7_collect_filings [c7K, c7Other, c7Old] 2025 5).2.1 c7K (by decide)).mpr
      ⟨Or.inl rfl, fun h => absurd h.1 (by decide)⟩,
   fun hmem =>
    (((C7_collect_filings [c7K, c7Other, c7Old] 2025 5).2.1 c7Old (by decide)).mp hmem).2
      ⟨by decide, ⟨2015, rfl, by decide⟩⟩⟩

/-! C8: cache hits in `SecClient.get`. -/

theorem decode_error_shape (gunzip inflate : List Nat → Option (List Nat))
    (data : List Nat) (enc : Option String) (ctx : String) :
    (∃ d, decode_response_bytes gunzip inflate data enc ctx = Except.ok d) ∨
    decode_response_bytes gunzip inflate data enc ctx =
      Except.error (FetchError.decompress ctx) := by
  unfold decode_response_bytes
  repeat' split
  all_goals
    by_cases h1 : lowerStr (trimStr (enc.getD "")) = "gzip" <;>
      by_cases h2 : lowerStr (trimStr (enc.getD "")) = "deflate" <;>
        simp [h1, h2]

/-- C8: a cache hit returns the decoded cached bytes with the client state
untouched — the byte counter, request counter and throttle timestamp are
unchanged, no throttle wait or network request happens, and neither byte
budget is checked (the only possible error is a decompression failure). -/
theorem C8_cache_hit (gunzip inflate : List Nat → Option (List Nat))
    (net : String → NetResponse) (now : Rat) (s : SecClientState) (url : String)
    (bs : List Nat) (hcache : cacheLookup s.cache url = some bs) :
    client_get gunzip inflate net now s url true =
      (decode_response_bytes gunzip inflate bs none ("cache=" ++ url), s) ∧
    (client_get gunzip inflate net now s url true).2.total_downloaded_bytes =
      s.total_downloaded_bytes ∧
    (client_get gunzip inflate net now s url true).2.request_count = s.request_count ∧
    (client_get gunzip inflate net now s url true).2.last_request_ts = s.last_request_ts ∧
    ∀ u sz, (client_get gunzip inflate net now s url true).1 ≠
        Except.error (FetchError.artifactTooLarge u sz) ∧
      (client_get gunzip inflate net now s url true).1 ≠
        Except.error (FetchError.runBudgetExceeded u sz) := by
  have h1 : client_get gunzip inflate net now s url true =
      (decode_response_bytes gunzip inflate bs none ("cache=" ++ url), s) := by
    simp [client_get, hcache]
  refine ⟨h1, by rw [h1], by rw [h1], by rw [h1], ?_⟩
  intro u sz
  rw [h1]
  rcases decode_error_shape gunzip inflate bs none ("cache=" ++ url) with ⟨d, hd⟩ | hd <;>
    simp [hd]

/-- C8 witness state: a cache entry for URL `u`, with the cumulative byte
counter already above the run budget. -/
def c8State : SecClientState :=
  { max_file_size_bytes := 10, max_total_download_bytes := 0,
    total_downloaded_bytes := 999, request_count := 7, last_request_ts := 5,
    cache := [("u", [1, 2, 3])] }

/-- C8 witness: the cached read succeeds and leaves the state unchanged
even though the byte budget is exhausted. -/
theorem C8_cache_hit_witness :
    client_get (fun _ => none) (fun _ => none) (fun _ => ⟨[], none⟩) 9 c8State "u" true =
      (Except.ok [1, 2, 3], c8State) := by
  rw [(C8_cache_hit (fun _ => none) (fun _ => none) (fun _ => ⟨[], none⟩) 9 c8State "u"
    [1, 2, 3] (by decide)).1]
  rfl

/-! C9 and C10: the assembler. -/

/-- C9: the periods list produced by the assembler is sorted ascending by
(fiscal_year, fiscal_period, period_end), for every companyfacts table,
segments mode, segment-extraction outcome and filings list. -/
theorem C9_periods_sorted (cf : CompanyFacts) (mode : SegmentsMode)
    (segOracle : Filing → SegResult × List MissingEntry) (filings : List Filing) :
    List.Pairwise (fun a b => periodLE a b) (build_periods cf mode segOracle filings) := by
  have htrans : ∀ a b c : Period, periodLE a b → periodLE b c → periodLE a c :=
    fun a b c h1 h2 =>
      lex3LE_trans (fun p : Period => p.fiscal_year) (fun p : Period => p.fiscal_period)
        (fun p : Period => p.period_end) a b c h1 h2
  have htotal : ∀ a b : Period, periodLE a b || periodLE b a :=
    fun a b =>
      lex3LE_total (fun p : Period => p.fiscal_year) (fun p : Period => p.fiscal_period)
        (fun p : Period => p.period_end) a b
  exact List.sorted_mergeSort htrans htotal _

/-- C10: the assembler never attempts forecast extraction — every
assembled period has an empty forecasted_capex list and carries the
standard missing-data entry for field `forecasted_capex`. -/
theorem C10_forecast_skipped (cf : CompanyFacts) (mode : SegmentsMode)
    (segOracle : Filing → SegResult × List MissingEntry) (filings : List Filing)
    (p : Period) (hp : p ∈ build_periods cf mode segOracle filings) :
    p.forecasted_capex = [] ∧ fcSkipEntry ∈ p.missing_data := by
  rw [build_periods, List.mem_mergeSort] at hp
  obtain ⟨f, hf, rfl⟩ := List.mem_map.mp hp
  exact ⟨rfl, by simp [build_period]⟩

/-- C10 witness filing. -/
def c10Filing : Filing :=
  { form := "10-K", filing_date := "2024-09-01", report_date := some "2024-06-30",
    accession := "w10", primary_doc := "w.htm", fy := some 2024, fp := some "FY" }

/-- C10 witness: a one-filing run instantiated. -/
theorem C10_forecast_skipped_witness :
    (build_period ⟨[]⟩ SegmentsMode.noneMode (fun _ => (⟨[], [], []⟩, [])) c10Filing).forecasted_capex
      = [] ∧
    fcSkipEntry ∈
      (build_period ⟨[]⟩ SegmentsMode.noneMode (fun _ => (⟨[], [], []⟩, [])) c10Filing).missing_data :=
  C10_forecast_skipped ⟨[]⟩ SegmentsMode.noneMode (fun _ => (⟨[], [], []⟩, []))
    [c10Filing] _ (by simp [build_periods])

end SecFin
